import Mathlib

/-!
Shallow embedding of the remote-device session manager of src/src/device.ts
(the Device class): the facade connection lifecycle, the SFTP-backed remote
filesystem operations, the recursive mkdir_p and rm_rf algorithms, the
transfer progress reporting of get and put, and the link-local address
resolution of connectClient.

The remote filesystem and the transport are environment state; every Device
method is translated to a pure function that returns its result, the updated
state, and the list of remote calls it issued.  Awaited transport outcomes
that the source merely observes (the handshake, the SFTP sub-session
opening) are passed in as parameters.
-/

/-- RPath on the remote device, given as the list of its slash separated
segments.  The remote resolves path strings; the segment list is that
resolved view (segsOf converts the strings the source passes around). -/
abbrev RPath := List String

/-- SFTP status codes as far as the source distinguishes them: device.ts
compares err.code against ssh2.SFTP_STATUS_CODE.NO_SUCH_FILE and otherwise
only carries codes through. -/
inductive SftpCode
  | noSuchFile
  | permissionDenied
  | failure
  deriving DecidableEq, Repr

/-- Error values thrown or rejected by the embedded code paths.
notConnected stands for the thrown Error with message Not connected,
invalidArgument for the Error thrown by the absolute path check of mkdir_p,
notADirectory for the Error thrown by mkdir_p naming the offending prefix,
and sftp for protocol errors carrying an SFTP status code. -/
inductive Err
  | notConnected
  | invalidArgument
  | notADirectory (part : String)
  | sftp (code : SftpCode)
  deriving DecidableEq, Repr

/-- The code field of a JavaScript error value: only SFTP protocol errors
carry a status code; a plain Error value has none (undefined). -/
def Err.code : Err → Option SftpCode
  | .sftp c => some c
  | _ => none

deriving instance DecidableEq for Except

/-- Remote stat result, reduced to the one field the source consults
(stat.isDirectory()) and snapshots. -/
structure Stats where
  isDir : Bool
  deriving DecidableEq, Repr

/-- Lifecycle events fired by the Device event emitters. -/
inductive Event
  | willConnect
  | didConnect
  | didDisconnect
  deriving DecidableEq, Repr

/-- Remote calls issued over the connection, for accounting which
operations reach the network. -/
inductive Call
  | stat (p : RPath)
  | readdir (p : RPath)
  | mkdir (p : RPath)
  | rmdir (p : RPath)
  | unlink (p : RPath)
  | chmod (p : RPath)
  | fastGet (remote localPath : String)
  | fastPut (localPath remote : String)
  | exec (command : String)
  deriving DecidableEq, Repr

/-- The remote directory tree, flattened: each entry maps a path to whether
it is a directory (true) or a file (false).  The root is implicit and is
always a directory. -/
abbrev Fs := List (RPath × Bool)

/-- Lookup of a path in the flattened tree (first matching entry). -/
def lookupFs (fs : Fs) (p : RPath) : Option Bool :=
  (fs.find? (fun e => decide (e.1 = p))).map (fun e => e.2)

/-- Resolution of a path by the remote: the root always exists and is a
directory; every other path exists as recorded in the tree. -/
def statFs (fs : Fs) (p : RPath) : Option Bool :=
  if p = [] then some true else lookupFs fs p

/-- Names of the immediate children of a directory, in the order the
listing returns them (here: entry order of the flattened tree). -/
def childrenNames (fs : Fs) (p : RPath) : List String :=
  fs.filterMap (fun e =>
    match e.1.getLast? with
    | some n => if e.1.dropLast = p then some n else none
    | none => none)

/-- Removal of the entries for a path from the flattened tree. -/
def removeEntry (fs : Fs) (p : RPath) : Fs :=
  fs.filter (fun e => decide (e.1 ≠ p))

/-- Modelled from the spec: the remote SFTP endpoint that serves the
filesystem calls of the Remote Filesystem Adapter (section 4.2 of the
spec); this peer is outside the repository.  Besides the tree it carries
fault injections: paths on which stat reports a given status code and
paths on which unlink or rmdir fail, standing for the other protocol
errors the spec allows the remote to report. -/
structure Remote where
  fs : Fs := []
  statFaults : List (RPath × SftpCode) := []
  unlinkFaults : List RPath := []
  rmdirFaults : List RPath := []
  deriving DecidableEq, Repr

/-- Remote stat: an injected fault wins, otherwise existing paths report
their attributes and missing paths report NO_SUCH_FILE. -/
def Remote.stat (r : Remote) (p : RPath) : Except Err Stats :=
  match r.statFaults.find? (fun e => decide (e.1 = p)) with
  | some e => .error (.sftp e.2)
  | none =>
    match statFs r.fs p with
    | some b => .ok { isDir := b }
    | none => .error (.sftp .noSuchFile)

/-- Remote mkdir: creates exactly one directory level; fails if the entry
already exists or the parent is missing or is not a directory. -/
def Remote.mkdir (r : Remote) (p : RPath) : Except Err Remote :=
  match statFs r.fs p with
  | some _ => .error (.sftp .failure)
  | none =>
    match statFs r.fs p.dropLast with
    | some true => .ok { r with fs := r.fs ++ [(p, true)] }
    | some false => .error (.sftp .failure)
    | none => .error (.sftp .noSuchFile)

/-- Remote readdir: lists the children of a directory. -/
def Remote.readdir (r : Remote) (p : RPath) : Except Err (List String) :=
  match statFs r.fs p with
  | some true => .ok (childrenNames r.fs p)
  | some false => .error (.sftp .failure)
  | none => .error (.sftp .noSuchFile)

/-- Remote unlink: removes a single file; fails on a directory or a
missing path, or by injected fault. -/
def Remote.unlink (r : Remote) (p : RPath) : Except Err Remote :=
  if r.unlinkFaults.contains p then .error (.sftp .permissionDenied)
  else
    match statFs r.fs p with
    | none => .error (.sftp .noSuchFile)
    | some true => .error (.sftp .failure)
    | some false => .ok { r with fs := removeEntry r.fs p }

/-- Remote rmdir: removes an empty directory; fails on a file, a missing
path or a non-empty directory, or by injected fault. -/
def Remote.rmdir (r : Remote) (p : RPath) : Except Err Remote :=
  if r.rmdirFaults.contains p then .error (.sftp .permissionDenied)
  else
    match statFs r.fs p with
    | none => .error (.sftp .noSuchFile)
    | some false => .error (.sftp .failure)
    | some true =>
      if childrenNames r.fs p = [] then .ok { r with fs := removeEntry r.fs p }
      else .error (.sftp .failure)

/-- Remote chmod: succeeds on an existing path (permission bits are not
tracked by the model), fails with NO_SUCH_FILE otherwise. -/
def Remote.chmod (r : Remote) (p : RPath) : Except Err Unit :=
  match statFs r.fs p with
  | some _ => .ok ()
  | none => .error (.sftp .noSuchFile)

/-- JavaScript String.prototype.split with the slash separator, written
over the character list of the string (accumulator holds the current
segment reversed). -/
def splitSlashAux : List Char → List Char → List String
  | [], acc => [String.mk acc.reverse]
  | c :: cs, acc =>
    if c = '/' then String.mk acc.reverse :: splitSlashAux cs []
    else splitSlashAux cs (c :: acc)

/-- dirPath.split(`/`) of the source. -/
def splitSlash (s : String) : List String := splitSlashAux s.data []

/-- Resolution of a path string into segments by the remote: empty
segments (leading, trailing or doubled slashes) name no component. -/
def segsOf (s : String) : RPath := (splitSlash s).filter (fun x => decide (x ≠ ""))

/-- path.posix.isAbsolute: the string is nonempty and its first character
is a slash. -/
def isAbsolute (p : String) : Bool :=
  match p.data with
  | [] => false
  | c :: _ => decide (c = '/')

/-- The state of one Device object: the fields of the class
(username and the home txt record from the mDNS service, the _isConnecting
and _isConnected flags, presence of the sftp sub-session wrapper, presence
of the _homeDirectoryAttr snapshot, readiness of the underlying client
connection) together with the modelled remote it talks to. -/
structure Device where
  username : String := "robot"
  homeTxt : Option String := none
  isConnecting : Bool := false
  isConnected : Bool := false
  sftp : Bool := false
  connReady : Bool := false
  homeAttr : Option Stats := none
  remote : Remote := {}
  deriving DecidableEq, Repr

/-- Device.homeDirectoryPath: the ev3dev.robot.home txt record if present
and truthy, else /home/username. -/
def Device.homeDirectoryPath (d : Device) : String :=
  match d.homeTxt with
  | some h => if h = "" then "/home/" ++ d.username else h
  | none => "/home/" ++ d.username

/-- Device.homeDirectoryAttr accessor: throws Not connected when the
snapshot is absent, else returns the snapshot. -/
def Device.homeDirectoryAttr (d : Device) : Except Err Stats :=
  match d.homeAttr with
  | none => .error .notConnected
  | some a => .ok a

/-- Device.stat with the path already resolved to segments: the guard
(if (!this.sftp) reject(new Error(Not connected))) issues no remote call;
otherwise one remote stat. -/
def Device.statP (d : Device) (p : RPath) : Except Err Stats × List Call :=
  if d.sftp then (d.remote.stat p, [Call.stat p])
  else (.error .notConnected, [])

/-- Device.ls with the path already resolved to segments. -/
def Device.lsP (d : Device) (p : RPath) : Except Err (List String) × List Call :=
  if d.sftp then (d.remote.readdir p, [Call.readdir p])
  else (.error .notConnected, [])

/-- Device.mkdir with the path already resolved to segments. -/
def Device.mkdirP (d : Device) (p : RPath) : Except Err Unit × Device × List Call :=
  if d.sftp then
    match d.remote.mkdir p with
    | .ok r => (.ok (), { d with remote := r }, [Call.mkdir p])
    | .error e => (.error e, d, [Call.mkdir p])
  else (.error .notConnected, d, [])

/-- Device.rmdir with the path already resolved to segments. -/
def Device.rmdirP (d : Device) (p : RPath) : Except Err Unit × Device × List Call :=
  if d.sftp then
    match d.remote.rmdir p with
    | .ok r => (.ok (), { d with remote := r }, [Call.rmdir p])
    | .error e => (.error e, d, [Call.rmdir p])
  else (.error .notConnected, d, [])

/-- Device.rm (unlink) with the path already resolved to segments. -/
def Device.rmP (d : Device) (p : RPath) : Except Err Unit × Device × List Call :=
  if d.sftp then
    match d.remote.unlink p with
    | .ok r => (.ok (), { d with remote := r }, [Call.unlink p])
    | .error e => (.error e, d, [Call.unlink p])
  else (.error .notConnected, d, [])

/-- Device.chmod with the path already resolved to segments. -/
def Device.chmodP (d : Device) (p : RPath) : Except Err Unit × List Call :=
  if d.sftp then (d.remote.chmod p, [Call.chmod p])
  else (.error .notConnected, [])

/-- Device.stat(path): guard then remote stat of the resolved path. -/
def Device.stat (d : Device) (path : String) : Except Err Stats × List Call :=
  d.statP (segsOf path)

/-- Device.ls(path). -/
def Device.ls (d : Device) (path : String) : Except Err (List String) × List Call :=
  d.lsP (segsOf path)

/-- Device.mkdir(path): creates exactly one directory level. -/
def Device.mkdir (d : Device) (path : String) : Except Err Unit × Device × List Call :=
  d.mkdirP (segsOf path)

/-- Device.rmdir(path). -/
def Device.rmdir (d : Device) (path : String) : Except Err Unit × Device × List Call :=
  d.rmdirP (segsOf path)

/-- Device.rm(path). -/
def Device.rm (d : Device) (path : String) : Except Err Unit × Device × List Call :=
  d.rmP (segsOf path)

/-- Device.chmod(path, mode); the mode argument does not influence the
modelled state. -/
def Device.chmod (d : Device) (path : String) (mode : Nat) : Except Err Unit × List Call :=
  let _ := mode
  d.chmodP (segsOf path)

/-- Device.disconnect: sets _isConnected to false, ends and drops the sftp
sub-session when present, ends the client connection and fires the
disconnected event.  The cached _homeDirectoryAttr is not touched. -/
def Device.disconnect (d : Device) : Device × List Event :=
  ({ d with isConnected := false, sftp := false, connReady := false },
   [Event.didDisconnect])

/-- Device.connect.  The outcomes of the two awaited transport steps
(the connectClient handshake and client.sftp) are parameters; the home
directory stat outcome is determined by the modelled remote.  Returns the
updated device, the fired events in order, and the settlement of the
returned promise.  Faithful to the source: the await of connectClient sits
outside the try block, so a handshake failure propagates without running
the catch cleanup. -/
def Device.connect (d : Device) (handshake : Except Err Unit)
    (sftpRes : Except Err Unit) : Device × List Event × Except Err Unit :=
  let d1 := { d with isConnecting := true }
  match handshake with
  | .error e => (d1, [Event.willConnect], .error e)
  | .ok _ =>
    let d2 := { d1 with connReady := true }
    match sftpRes with
    | .error e =>
      let d3 := { d2 with isConnecting := false }
      let (d4, evs) := d3.disconnect
      (d4, Event.willConnect :: evs, .error e)
    | .ok _ =>
      let d3 := { d2 with sftp := true }
      match (d3.stat d3.homeDirectoryPath).1 with
      | .error e =>
        let d4 := { d3 with isConnecting := false }
        let (d5, evs) := d4.disconnect
        (d5, Event.willConnect :: evs, .error e)
      | .ok st =>
        ({ d3 with homeAttr := some st, isConnecting := false, isConnected := true },
         [Event.willConnect, Event.didConnect], .ok ())

/-- A freshly constructed Device in the idle state. -/
def devIdle : Device := {}

/-- C1 counterexample.  A failure of the secure-channel handshake (the
first awaited step of connect) leaves isConnecting true, performs no
disconnect cleanup and fires no disconnected event from within connect:
the claim requires isConnecting to return to false and exactly one
disconnected event, so it fails at this concrete input.  The rejection
does carry the originating error. -/
theorem connect_handshake_failure_counterexample :
    (devIdle.connect (.error (.sftp .failure)) (.ok ())).1.isConnecting = true ∧
    (devIdle.connect (.error (.sftp .failure)) (.ok ())).2.1.count Event.didDisconnect = 0 ∧
    (devIdle.connect (.error (.sftp .failure)) (.ok ())).2.2 = .error (.sftp .failure) := by
  decide

/-- C1 (amended).  A failure while opening the SFTP sub-session or while
taking the home-directory stat triggers the catch cleanup: the device
returns to idle (isConnecting and isConnected false, no sftp sub-session,
connection ended), exactly one disconnected event fires, and the promise
rejects with the originating error.  A failure of the secure-channel
handshake itself rejects with the originating error but bypasses the
cleanup: isConnecting stays true and no disconnected event is fired by
connect. -/
theorem connect_failure_cleanup (d : Device) (e : Err) :
    (∀ r2, d.connect (.error e) r2 =
      ({ d with isConnecting := true }, [Event.willConnect], .error e)) ∧
    (d.connect (.ok ()) (.error e) =
      ({ d with isConnecting := false, isConnected := false, sftp := false,
                connReady := false },
       [Event.willConnect, Event.didDisconnect], .error e)) ∧
    (d.remote.stat (segsOf d.homeDirectoryPath) = .error e →
      d.connect (.ok ()) (.ok ()) =
        ({ d with isConnecting := false, isConnected := false, sftp := false,
                  connReady := false },
         [Event.willConnect, Event.didDisconnect], .error e)) := by
  refine ⟨fun r2 => rfl, rfl, fun hstat => ?_⟩
  simp only [Device.connect, Device.disconnect, Device.stat, Device.statP,
    Device.homeDirectoryPath] at hstat ⊢
  simp [hstat]

/-- C1 witness: the amended theorem applied at concrete inputs; the fresh
device has an empty remote, so the home-directory stat fails with
NO_SUCH_FILE. -/
theorem connect_failure_cleanup_witness :
    (devIdle.connect (.ok ()) (.error (.sftp .failure)) =
      ({ devIdle with isConnecting := false, isConnected := false, sftp := false,
                      connReady := false },
       [Event.willConnect, Event.didDisconnect], .error (.sftp .failure))) ∧
    (devIdle.connect (.error (.sftp .failure)) (.ok ()) =
      ({ devIdle with isConnecting := true }, [Event.willConnect],
       .error (.sftp .failure))) ∧
    (devIdle.connect (.ok ()) (.ok ()) =
      ({ devIdle with isConnecting := false, isConnected := false, sftp := false,
                      connReady := false },
       [Event.willConnect, Event.didDisconnect], .error (.sftp .noSuchFile))) := by
  refine ⟨(connect_failure_cleanup devIdle (.sftp .failure)).2.1,
          (connect_failure_cleanup devIdle (.sftp .failure)).1 (.ok ()),
          (connect_failure_cleanup devIdle (.sftp .noSuchFile)).2.2 (by decide)⟩

/-- A device whose mDNS txt record points the home directory at /h, with
that directory present on the remote. -/
def devHome : Device :=
  { homeTxt := some "/h", remote := { fs := [(["h"], true)] } }

/-- C2 counterexample.  After a successful connect followed by
disconnect(), the cached home-directory snapshot is still present: the
homeDirectoryAttr accessor returns the stale attributes instead of failing
with Not connected, so the snapshot-iff-connected invariant is not
preserved by disconnect. -/
theorem disconnect_stale_homeAttr_counterexample :
    ((devHome.connect (.ok ()) (.ok ())).1.disconnect.1.isConnected = false) ∧
    ((devHome.connect (.ok ()) (.ok ())).1.disconnect.1.homeDirectoryAttr
      = .ok { isDir := true }) ∧
    ((devHome.connect (.ok ()) (.ok ())).1.disconnect.1.homeDirectoryAttr
      ≠ .error .notConnected) := by
  decide

/-- C2 (amended).  The sftp-iff-connected half of the invariant is
preserved by connect (for any step outcomes) and by disconnect, and
disconnect() does end the SFTP sub-session and the transport; but
disconnect() does not clear the cached home-directory attributes, so after
a successful connect followed by disconnect the homeDirectoryAttr accessor
still returns the stale snapshot rather than failing with Not connected. -/
theorem disconnect_invariant_amended (d : Device) (hinv : d.sftp = d.isConnected) :
    (d.disconnect.1.sftp = d.disconnect.1.isConnected) ∧
    (∀ hs r2, (d.connect hs r2).1.sftp = (d.connect hs r2).1.isConnected) ∧
    (d.disconnect.1.homeAttr = d.homeAttr) ∧
    (∀ a, d.homeAttr = some a → d.disconnect.1.homeDirectoryAttr = .ok a) := by
  refine ⟨rfl, fun hs r2 => ?_, rfl, fun a ha => ?_⟩
  · cases hs with
    | error e => simpa [Device.connect] using hinv
    | ok u =>
      cases r2 with
      | error e => simp [Device.connect, Device.disconnect]
      | ok u2 =>
        simp only [Device.connect, Device.disconnect]
        cases h : (({ d with isConnecting := true, connReady := true, sftp := true
                      } : Device).stat
            ({ d with isConnecting := true, connReady := true, sftp := true
              } : Device).homeDirectoryPath).1 <;> simp [h]
  · simp [Device.disconnect, Device.homeDirectoryAttr, ha]

/-- C2 witness: the amended theorem applied to the connected state reached
from devHome, whose invariant entry hypothesis and cached snapshot are
discharged by evaluation. -/
theorem disconnect_invariant_amended_witness :
    ((devHome.connect (.ok ()) (.ok ())).1.disconnect.1.sftp
      = (devHome.connect (.ok ()) (.ok ())).1.disconnect.1.isConnected) ∧
    ((devHome.connect (.ok ()) (.ok ())).1.disconnect.1.homeDirectoryAttr
      = .ok { isDir := true }) := by
  refine ⟨(disconnect_invariant_amended (devHome.connect (.ok ()) (.ok ())).1
      (by decide)).1,
    (disconnect_invariant_amended (devHome.connect (.ok ()) (.ok ())).1
      (by decide)).2.2.2 { isDir := true } (by decide)⟩

/-- One step of the prefix accumulation of mkdir_p:
part = path.posix.join(part, name) at segment level, for a normalized
absolute accumulator.  An empty or dot segment leaves the accumulator
unchanged, a dot-dot segment pops one level, any other name is appended. -/
def joinSegs (part : RPath) (name : String) : RPath :=
  if name = "" ∨ name = "." then part
  else if name = ".." then part.dropLast
  else part ++ [name]

/-- The string form of an accumulated absolute path, as the source would
hold it ("/" for the root). -/
def renderPath (p : RPath) : String :=
  "/" ++ String.intercalate "/" p

/-- The loop of Device.mkdir_p over the remaining split segments, carrying
the accumulated prefix.  For each prefix: stat it; if it exists and is not
a directory, throw the Error naming the offending prefix (the catch block
rethrows it since it carries no SFTP code); if the stat error carries a
code other than NO_SUCH_FILE, rethrow it; on NO_SUCH_FILE create the level
with mkdir and continue.  The accumulated prefix is kept in segment form;
the strings the source builds with path.posix.join resolve to exactly
these segments. -/
def mkdir_pGo : Device → RPath → List String → Except Err Unit × Device × List Call
  | d, _, [] => (.ok (), d, [])
  | d, part, name :: rest =>
    let part2 := joinSegs part name
    match d.statP part2 with
    | (.ok st, tr) =>
      if st.isDir then
        let (res, d2, tr2) := mkdir_pGo d part2 rest
        (res, d2, tr ++ tr2)
      else
        (.error (.notADirectory (renderPath part2)), d, tr)
    | (.error e, tr) =>
      if e.code ≠ some SftpCode.noSuchFile then (.error e, d, tr)
      else
        match d.mkdirP part2 with
        | (.ok _, d2, tr2) =>
          let (res, d3, tr3) := mkdir_pGo d2 part2 rest
          (res, d3, tr ++ tr2 ++ tr3)
        | (.error e2, d2, tr2) => (.error e2, d2, tr ++ tr2)

/-- Device.mkdir_p: rejects a non-absolute path with the InvalidArgument
error before anything else; otherwise splits the path on slashes, drops
the leading empty segment produced by the leading slash, and walks the
prefixes from the root. -/
def Device.mkdir_p (d : Device) (dirPath : String) : Except Err Unit × Device × List Call :=
  if ¬ isAbsolute dirPath then (.error .invalidArgument, d, [])
  else mkdir_pGo d [] ((splitSlash dirPath).drop 1)

/-- A connected device over an empty remote tree. -/
def devEmpty : Device := { sftp := true, connReady := true }

/-- A connected device whose remote has /a as a file. -/
def devAFile : Device :=
  { sftp := true, connReady := true, remote := { fs := [(["a"], false)] } }

/-- Sequential removal of the children of a directory inside rm_rf: the
removal function runs on each child path (the directory path extended by
the listed filename) in listing order, awaiting each before the next, so
the first failure stops the walk and propagates. -/
def runSeq (f : Device → RPath → Except Err Unit × Device × List Call) :
    Device → RPath → List String → Except Err Unit × Device × List Call
  | d, _, [] => (.ok (), d, [])
  | d, p, name :: rest =>
    match f d (p ++ [name]) with
    | (.error e, d2, tr) => (.error e, d2, tr)
    | (.ok _, d2, tr) =>
      let (res, d3, tr2) := runSeq f d2 p rest
      (res, d3, tr ++ tr2)

/-- Fuel-indexed interpreter of Device.rm_rf: stat the target; if it is a
directory, list it once, remove each listed child recursively in listing
order, then rmdir the directory; otherwise unlink it.  The fuel only
bounds the recursion depth for Lean; rm_rf below instantiates it above any
reachable depth, so the fuel-exhaustion arm is never taken there. -/
def rm_rfFuel : Nat → Device → RPath → Except Err Unit × Device × List Call
  | 0, d, _ => (.error (.sftp .failure), d, [])
  | fuel + 1, d, p =>
    match d.statP p with
    | (.error e, tr) => (.error e, d, tr)
    | (.ok st, tr) =>
      if st.isDir then
        match d.lsP p with
        | (.error e, tr2) => (.error e, d, tr ++ tr2)
        | (.ok names, tr2) =>
          match runSeq (fun d2 q => rm_rfFuel fuel d2 q) d p names with
          | (.error e, d2, tr3) => (.error e, d2, tr ++ tr2 ++ tr3)
          | (.ok _, d2, tr3) =>
            let (res, d3, tr4) := d2.rmdirP p
            (res, d3, tr ++ tr2 ++ tr3 ++ tr4)
      else
        let (res, d2, tr2) := d.rmP p
        (res, d2, tr ++ tr2)

/-- Longest path length recorded in the tree. -/
def maxKeyLen (fs : Fs) : Nat := (fs.map (fun e => e.1.length)).foldr max 0

/-- Device.rm_rf(path).  The recursion of the source runs on the finite
remote tree: a frame only recurses after its path stats as a directory,
which bounds every recursing frame by the longest recorded path, and each
level descends one segment, so maxKeyLen + 2 units of fuel exceed any
reachable recursion depth. -/
def Device.rm_rf (d : Device) (path : String) : Except Err Unit × Device × List Call :=
  rm_rfFuel (maxKeyLen d.remote.fs + 2) d (segsOf path)

/-- A JavaScript number as the progress computation can produce it:
an ordinary (here: rational) value, NaN, or positive infinity. -/
inductive JsNum
  | num (q : ℚ)
  | nan
  | posInf
  deriving DecidableEq, Repr

/-- JavaScript division on the nonnegative values the progress computation
feeds it: division by zero gives NaN for a zero numerator and positive
infinity otherwise. -/
def jsDiv : JsNum → JsNum → JsNum
  | .num a, .num b =>
    if b = 0 then (if a = 0 then .nan else .posInf) else .num (a / b)
  | .nan, _ => .nan
  | _, .nan => .nan
  | .posInf, _ => .posInf
  | _, .posInf => .posInf

/-- JavaScript multiplication on the same value space (positive second
factor in every use here). -/
def jsMul : JsNum → JsNum → JsNum
  | .num a, .num b => .num (a * b)
  | .nan, _ => .nan
  | _, .nan => .nan
  | .posInf, .num b => if b = 0 then .nan else .posInf
  | .num a, .posInf => if a = 0 then .nan else .posInf
  | .posInf, .posInf => .posInf

/-- Math.round: for a finite value the floor of the value plus one half;
NaN and infinity pass through. -/
def jsRound : JsNum → JsNum
  | .num q => .num ((⌊q + 1 / 2⌋ : ℤ) : ℚ)
  | .nan => .nan
  | .posInf => .posInf

/-- The argument the step callback of fastGet and fastPut passes to
reportPercentage: Math.round(transferred / total * 100). -/
def stepPercent (transferred total : Nat) : JsNum :=
  jsRound (jsMul (jsDiv (.num transferred) (.num total)) (.num 100))

/-- Device.exec forwards the command to client.exec without any guard of
its own.  Modelled from the spec: the transport session rejects channel
opening with a Not connected error and sends nothing when no connection is
established (the client behavior the source relies on); once connected the
channel outcome comes from the remote and is passed in. -/
def Device.exec (d : Device) (command : String) (chan : Except Err Unit) :
    Except Err Unit × List Call :=
  if d.connReady then (chan, [Call.exec command]) else (.error .notConnected, [])

/-- Device.get: the Not connected guard, then sftp.fastGet with
concurrency 1.  chunks lists the (transferred, total) pairs the transfer
reports to the step callback; the middle component collects the arguments
passed to reportPercentage in order; the settlement of the transfer comes
from the remote and is passed in. -/
def Device.get (d : Device) (remote localPath : String) (chunks : List (Nat × Nat))
    (tres : Except Err Unit) : Except Err Unit × List JsNum × List Call :=
  let _ := localPath
  if d.sftp then
    (tres, chunks.map (fun c => stepPercent c.1 c.2), [Call.fastGet remote localPath])
  else (.error .notConnected, [], [])

/-- Device.put: the Not connected guard, then sftp.fastPut with
concurrency 1 and the optional mode; progress reporting as in get. -/
def Device.put (d : Device) (localPath remote : String) (mode : Option String)
    (chunks : List (Nat × Nat)) (tres : Except Err Unit) :
    Except Err Unit × List JsNum × List Call :=
  let _ := mode
  if d.sftp then
    (tres, chunks.map (fun c => stepPercent c.1 c.2), [Call.fastPut localPath remote])
  else (.error .notConnected, [], [])

/-- A connected device whose remote reports a fault code other than
NO_SUCH_FILE when /a is statted. -/
def devAFault : Device :=
  { sftp := true, connReady := true,
    remote := { statFaults := [(["a"], .permissionDenied)] } }

/-- C3.  mkdir_p walks the path prefixes in order from the root: on the
empty tree, mkdir_p of /a/b/c stats and creates exactly /a, /a/b, /a/b/c
in that order; if a prefix exists as a file the call fails with the
NotADirectory error naming that prefix and creates nothing beyond it; a
prefix that exists as a directory is passed over without writes; and a
stat error whose code is not NO_SUCH_FILE propagates unchanged with
nothing created. -/
theorem mkdir_p_walk :
    (devEmpty.mkdir_p "/a/b/c" =
      (.ok (),
       { devEmpty with
           remote := { fs := [(["a"], true), (["a", "b"], true), (["a", "b", "c"], true)] } },
       [Call.stat ["a"], Call.mkdir ["a"], Call.stat ["a", "b"], Call.mkdir ["a", "b"],
        Call.stat ["a", "b", "c"], Call.mkdir ["a", "b", "c"]])) ∧
    (devAFile.mkdir_p "/a/b/c" =
      (.error (.notADirectory "/a"), devAFile, [Call.stat ["a"]])) ∧
    (∀ (d : Device) (part : RPath) (name : String) (rest : List String) (c : SftpCode),
      d.sftp = true → c ≠ SftpCode.noSuchFile →
      d.remote.stat (joinSegs part name) = .error (.sftp c) →
      mkdir_pGo d part (name :: rest) =
        (.error (.sftp c), d, [Call.stat (joinSegs part name)])) := by
  refine ⟨by decide, by decide, fun d part name rest c hs hc hstat => ?_⟩
  simp [mkdir_pGo, Device.statP, hs, hstat, Err.code, hc]

/-- C3 witness: the propagation clause of the theorem applied to a
concrete device with an injected PERMISSION_DENIED stat fault on /a. -/
theorem mkdir_p_walk_witness :
    mkdir_pGo devAFault [] ["a", "b"] =
      (.error (.sftp .permissionDenied), devAFault, [Call.stat (joinSegs [] "a")]) :=
  mkdir_p_walk.2.2 devAFault [] "a" ["b"] .permissionDenied rfl (by decide) (by decide)

/-- The trace of any rm_rf frame with fuel left begins with the stat of
its target: the stat is issued before any validation or branching. -/
theorem rm_rfFuel_stat_first (n : Nat) (d : Device) (p : RPath) (hs : d.sftp = true) :
    (rm_rfFuel (n + 1) d p).2.2.head? = some (Call.stat p) := by
  simp only [rm_rfFuel, Device.statP, Device.lsP, hs, if_true]
  rcases h : d.remote.stat p with e | st
  · simp
  · by_cases hd : st.isDir
    · simp only [hd, if_true]
      rcases hl : d.remote.readdir p with e2 | names
      · simp
      · rcases hr : runSeq (fun d2 q => rm_rfFuel n d2 q) d p names with ⟨res, d2, tr3⟩
        cases res <;> simp [hr]
    · simp [hd]

/-- A rm_rf frame on a device without an sftp sub-session fails at the
guard of its first stat, with no remote call. -/
theorem rm_rfFuel_idle (n : Nat) (d : Device) (p : RPath) (hs : d.sftp = false) :
    rm_rfFuel (n + 1) d p = (.error .notConnected, d, []) := by
  simp [rm_rfFuel, Device.statP, hs]

/-- The mkdir_p loop on a device without an sftp sub-session fails at the
guard of its first stat (a plain error with no SFTP code, so the catch
block rethrows it), with no remote call. -/
theorem mkdir_pGo_idle (d : Device) (part : RPath) (hs : d.sftp = false)
    (n : String) (rest : List String) :
    mkdir_pGo d part (n :: rest) = (.error .notConnected, d, []) := by
  simp [mkdir_pGo, Device.statP, hs, Err.code]

/-- String.prototype.split never returns an empty array. -/
theorem splitSlashAux_ne_nil (cs acc : List Char) : splitSlashAux cs acc ≠ [] := by
  induction cs generalizing acc with
  | nil => simp [splitSlashAux]
  | cons c cs ih => by_cases h : c = '/' <;> simp [splitSlashAux, h, ih]

/-- mkdir_p of an absolute path on a device without an sftp sub-session
fails with the Not connected error and issues no remote call. -/
theorem mkdir_p_idle (d : Device) (hs : d.sftp = false) (p : String)
    (habs : isAbsolute p = true) :
    d.mkdir_p p = (.error .notConnected, d, []) := by
  rw [Device.mkdir_p, if_neg (by simp [habs])]
  rcases hp : p.data with _ | ⟨c, cs⟩
  · exact absurd habs (by rw [isAbsolute, hp]; simp)
  · have hc : c = '/' := by rw [isAbsolute, hp] at habs; simpa using habs
    have hsplit : splitSlash p = "" :: splitSlashAux cs [] := by
      rw [splitSlash, hp, hc]; simp [splitSlashAux]
    rw [hsplit]
    obtain ⟨n, rest, hnr⟩ := List.exists_cons_of_ne_nil (splitSlashAux_ne_nil cs [])
    simp only [List.drop_succ_cons, List.drop_zero]
    rw [hnr]
    exact mkdir_pGo_idle d [] hs n rest

/-- C6.  While the session is idle (no sftp sub-session, no established
connection) every filesystem operation, both recursive operations, and
exec fail with the Not connected error and issue no remote call. -/
theorem idle_ops_not_connected (d : Device) (hs : d.sftp = false) (hc : d.connReady = false) :
    (∀ p, d.stat p = (.error .notConnected, [])) ∧
    (∀ p, d.ls p = (.error .notConnected, [])) ∧
    (∀ p, d.mkdir p = (.error .notConnected, d, [])) ∧
    (∀ p, d.rmdir p = (.error .notConnected, d, [])) ∧
    (∀ p, d.rm p = (.error .notConnected, d, [])) ∧
    (∀ p m, d.chmod p m = (.error .notConnected, [])) ∧
    (∀ r l chunks tres, d.get r l chunks tres = (.error .notConnected, [], [])) ∧
    (∀ l r m chunks tres, d.put l r m chunks tres = (.error .notConnected, [], [])) ∧
    (∀ p, isAbsolute p = true → d.mkdir_p p = (.error .notConnected, d, [])) ∧
    (∀ p, d.rm_rf p = (.error .notConnected, d, [])) ∧
    (∀ cmd chan, d.exec cmd chan = (.error .notConnected, [])) := by
  refine ⟨fun p => ?_, fun p => ?_, fun p => ?_, fun p => ?_, fun p => ?_,
    fun p m => ?_, fun r l chunks tres => ?_, fun l r m chunks tres => ?_,
    fun p habs => mkdir_p_idle d hs p habs, fun p => ?_, fun cmd chan => ?_⟩
  · simp [Device.stat, Device.statP, hs]
  · simp [Device.ls, Device.lsP, hs]
  · simp [Device.mkdir, Device.mkdirP, hs]
  · simp [Device.rmdir, Device.rmdirP, hs]
  · simp [Device.rm, Device.rmP, hs]
  · simp [Device.chmod, Device.chmodP, hs]
  · simp [Device.get, hs]
  · simp [Device.put, hs]
  · exact rm_rfFuel_idle (maxKeyLen d.remote.fs + 1) d (segsOf p) hs
  · simp [Device.exec, hc]

/-- C6 witness: the theorem applied to a freshly constructed idle device,
for a stat, a transfer, both recursive operations and an exec. -/
theorem idle_ops_not_connected_witness :
    devIdle.stat "/x" = (.error .notConnected, []) ∧
    devIdle.get "/x" "y" [(1, 2)] (.ok ()) = (.error .notConnected, [], []) ∧
    devIdle.mkdir_p "/x" = (.error .notConnected, devIdle, []) ∧
    devIdle.rm_rf "/x" = (.error .notConnected, devIdle, []) ∧
    devIdle.exec "/bin/true" (.ok ()) = (.error .notConnected, []) := by
  refine ⟨(idle_ops_not_connected devIdle rfl rfl).1 "/x",
    (idle_ops_not_connected devIdle rfl rfl).2.2.2.2.2.2.1 "/x" "y" [(1, 2)] (.ok ()),
    (idle_ops_not_connected devIdle rfl rfl).2.2.2.2.2.2.2.2.1 "/x" (by decide),
    (idle_ops_not_connected devIdle rfl rfl).2.2.2.2.2.2.2.2.2.1 "/x",
    (idle_ops_not_connected devIdle rfl rfl).2.2.2.2.2.2.2.2.2.2 "/bin/true" (.ok ())⟩

/-- A connected device over an empty remote tree (for the relative path
scenario). -/
def devRel : Device := { sftp := true, connReady := true }

/-- The remote tree /p containing files f1 and f2 and a directory d that
contains the file f3. -/
def remoteTree : Remote :=
  { fs := [(["p"], true), (["p", "f1"], false), (["p", "f2"], false),
           (["p", "d"], true), (["p", "d", "f3"], false)] }

/-- A connected device over remoteTree. -/
def devTree : Device := { sftp := true, connReady := true, remote := remoteTree }

/-- devTree with an injected unlink fault on /p/f2. -/
def devTreeFault : Device :=
  { devTree with remote := { remoteTree with unlinkFaults := [["p", "f2"]] } }

/-- C7 counterexample.  rm_rf performs no absoluteness validation: called
on the relative path relative/path it does not fail with InvalidArgument
but goes straight to a remote stat call, so the claim that every recursive
path operation validates absoluteness before running fails here. -/
theorem rm_rf_relative_counterexample :
    (devRel.rm_rf "relative/path").1 ≠ .error .invalidArgument ∧
    (devRel.rm_rf "relative/path").2.2 ≠ ([] : List Call) ∧
    devRel.rm_rf "relative/path" =
      (.error (.sftp .noSuchFile), devRel, [Call.stat ["relative", "path"]]) := by
  decide

/-- C7 (amended).  mkdir_p validates that its input is absolute and fails
with InvalidArgument on any non-absolute path without issuing a remote
call; rm_rf performs no such validation and its first action is always a
remote stat of whatever path it received. -/
theorem recursive_ops_validation (d : Device) (p : String) :
    (isAbsolute p = false → d.mkdir_p p = (.error .invalidArgument, d, [])) ∧
    (d.sftp = true → (d.rm_rf p).2.2.head? = some (Call.stat (segsOf p))) := by
  refine ⟨fun habs => ?_, fun hs => ?_⟩
  · simp [Device.mkdir_p, habs]
  · exact rm_rfFuel_stat_first (maxKeyLen d.remote.fs + 1) d (segsOf p) hs

/-- C7 witness: the amended theorem applied to a connected device and the
relative path of the counterexample. -/
theorem recursive_ops_validation_witness :
    devRel.mkdir_p "relative/path" = (.error .invalidArgument, devRel, []) ∧
    (devRel.rm_rf "relative/path").2.2.head? = some (Call.stat (segsOf "relative/path")) :=
  ⟨(recursive_ops_validation devRel "relative/path").1 (by decide),
   (recursive_ops_validation devRel "relative/path").2 rfl⟩

/-- C5.  rm_rf stats its target; a directory is removed by recursively
removing each listed child depth-first in listing order and then removing
the emptied directory with rmdir; a non-directory is unlinked directly.
On the tree /p containing f1, f2 and d (with d containing f3) it removes
f1, f2, f3, d and p in that order, leaving no trace; when the removal of
f2 fails, the already performed deletion of f1 stands (no rollback) and
the call rejects with that first originating error. -/
theorem rm_rf_removal :
    (devTree.rm_rf "/p" =
      (.ok (), { devTree with remote := { remoteTree with fs := [] } },
       [Call.stat ["p"], Call.readdir ["p"], Call.stat ["p", "f1"], Call.unlink ["p", "f1"],
        Call.stat ["p", "f2"], Call.unlink ["p", "f2"], Call.stat ["p", "d"],
        Call.readdir ["p", "d"], Call.stat ["p", "d", "f3"], Call.unlink ["p", "d", "f3"],
        Call.rmdir ["p", "d"], Call.rmdir ["p"]])) ∧
    (devTreeFault.rm_rf "/p" =
      (.error (.sftp .permissionDenied),
       { devTreeFault with
           remote := { devTreeFault.remote with
               fs := [(["p"], true), (["p", "f2"], false), (["p", "d"], true),
                      (["p", "d", "f3"], false)] } },
       [Call.stat ["p"], Call.readdir ["p"], Call.stat ["p", "f1"], Call.unlink ["p", "f1"],
        Call.stat ["p", "f2"], Call.unlink ["p", "f2"]])) ∧
    (∀ (n : Nat) (d : Device) (p : RPath),
      d.sftp = true → d.remote.stat p = .ok { isDir := false } →
      rm_rfFuel (n + 1) d p =
        ((d.rmP p).1, (d.rmP p).2.1, Call.stat p :: (d.rmP p).2.2)) := by
  refine ⟨by decide, by decide, fun n d p hs hstat => ?_⟩
  simp [rm_rfFuel, Device.statP, hs, hstat]

/-- C5 witness: the unlink clause of the theorem applied to the concrete
device whose remote has /a as a file. -/
theorem rm_rf_removal_witness :
    rm_rfFuel (0 + 1) devAFile ["a"] =
      ((devAFile.rmP ["a"]).1, (devAFile.rmP ["a"]).2.1,
       Call.stat ["a"] :: (devAFile.rmP ["a"]).2.2) :=
  rm_rf_removal.2.2 0 devAFile ["a"] rfl (by decide)

/-- IP protocol version of a discovered service. -/
inductive Ipv
  | v4
  | v6
  deriving DecidableEq, Repr

/-- The fields of the mDNS service record that connectClient consults for
address resolution. -/
structure DnssdService where
  address : String
  ipv : Ipv
  iface : Nat
  ifaceName : String
  deriving DecidableEq, Repr

/-- process.platform as far as the source distinguishes it. -/
inductive Platform
  | win32
  | darwin
  | linux
  deriving DecidableEq, Repr

/-- JavaScript String.prototype.startsWith, over character lists. -/
def startsWithStr (s pre : String) : Bool := pre.data.isPrefixOf s.data

/-- The host string connectClient passes to client.connect: an IPv6
link-local address (string prefix fe80::) gets the zone appended, the
interface index on win32 and the interface name on every other platform;
any other address is passed through unchanged. -/
def resolveAddress (platform : Platform) (s : DnssdService) : String :=
  if s.ipv = Ipv.v6 ∧ startsWithStr s.address "fe80::" = true then
    if platform = Platform.win32 then s.address ++ "%" ++ toString s.iface
    else s.address ++ "%" ++ s.ifaceName
  else s.address

/-- C9.  For a connection whose endpoint is an IPv6 link-local address
(prefix fe80::), the connection target gets a percent sign and the
interface index appended on win32 and the interface name appended on all
other platforms; IPv4 or non-link-local addresses pass through
unmodified. -/
theorem resolve_address_scope (pf : Platform) (s : DnssdService) :
    (s.ipv = Ipv.v6 → startsWithStr s.address "fe80::" = true →
      resolveAddress pf s =
        s.address ++ "%" ++
          (if pf = Platform.win32 then toString s.iface else s.ifaceName)) ∧
    (s.ipv = Ipv.v4 → resolveAddress pf s = s.address) ∧
    (startsWithStr s.address "fe80::" = false → resolveAddress pf s = s.address) := by
  refine ⟨fun h6 hpre => ?_, fun h4 => ?_, fun hpre => ?_⟩
  · by_cases hw : pf = Platform.win32 <;> simp [resolveAddress, h6, hpre, hw]
  · simp [resolveAddress, h4]
  · simp [resolveAddress, hpre]

/-- C9 witness: the theorem applied to the link-local address fe80::1 on
win32 and on linux, and to an IPv4 address. -/
theorem resolve_address_scope_witness :
    resolveAddress .win32
        { address := "fe80::1", ipv := .v6, iface := 3, ifaceName := "en0" }
      = "fe80::1%3" ∧
    resolveAddress .linux
        { address := "fe80::1", ipv := .v6, iface := 3, ifaceName := "en0" }
      = "fe80::1%en0" ∧
    resolveAddress .linux
        { address := "192.168.0.5", ipv := .v4, iface := 3, ifaceName := "en0" }
      = "192.168.0.5" := by
  refine ⟨?_, ?_, ?_⟩
  · rw [(resolve_address_scope .win32 _).1 rfl (by decide)]; decide
  · rw [(resolve_address_scope .linux _).1 rfl (by decide)]; decide
  · exact (resolve_address_scope .linux _).2.1 rfl

/-- C10.  For a chunk reported with total = 0 (an empty file), the value
the step callback passes to reportPercentage is Math.round(0 / 0 * 100),
which is NaN, not an integer in the range 0 to 100; both get and put pass
that NaN to the callback when such a chunk is reported, and only a
transfer reporting no chunks at all avoids it. -/
theorem empty_transfer_progress_nan :
    stepPercent 0 0 = JsNum.nan ∧
    (∀ k : Nat, stepPercent 0 0 ≠ JsNum.num (k : ℚ)) ∧
    (devRel.get "/r" "l" [(0, 0)] (.ok ())).2.1 = [JsNum.nan] ∧
    (devRel.put "l" "/r" none [(0, 0)] (.ok ())).2.1 = [JsNum.nan] ∧
    (devRel.get "/r" "l" [] (.ok ())).2.1 = ([] : List JsNum) := by
  refine ⟨by decide, fun k => ?_, by decide, by decide, by decide⟩
  rw [show stepPercent 0 0 = JsNum.nan from by decide]
  simp

/-- C8.  For every chunk a transfer reports with a positive total, the
value passed to the progress callback is an integer between 0 and 100
obtained by rounding transferred / total; the values are monotone
non-decreasing when chunks are reported in order; a chunk reporting the
full total yields exactly 100; and get and put pass precisely these
values, one per reported chunk. -/
theorem transfer_progress (t t1 t2 T : Nat) (hT : 1 ≤ T) :
    (t ≤ T → ∃ k : Nat, k ≤ 100 ∧ stepPercent t T = JsNum.num ((k : ℕ) : ℚ)) ∧
    (t1 ≤ t2 → t2 ≤ T →
      ∃ k1 k2 : Nat, k1 ≤ k2 ∧ stepPercent t1 T = JsNum.num ((k1 : ℕ) : ℚ) ∧
        stepPercent t2 T = JsNum.num ((k2 : ℕ) : ℚ)) ∧
    stepPercent T T = JsNum.num ((100 : ℕ) : ℚ) ∧
    (∀ (d : Device) (r l : String) (m : Option String) (chunks : List (Nat × Nat))
        (tres : Except Err Unit), d.sftp = true →
      (d.get r l chunks tres).2.1 = chunks.map (fun c => stepPercent c.1 c.2) ∧
      (d.put l r m chunks tres).2.1 = chunks.map (fun c => stepPercent c.1 c.2)) := by
  have hT0 : (0 : ℚ) < (T : ℚ) := by exact_mod_cast hT
  have hTne : (T : ℚ) ≠ 0 := ne_of_gt hT0
  have hstep : ∀ s : Nat,
      stepPercent s T = JsNum.num ((⌊(s : ℚ) / (T : ℚ) * 100 + 1 / 2⌋ : ℤ) : ℚ) := by
    intro s; simp [stepPercent, jsDiv, jsMul, jsRound, hTne]
  have hnn : ∀ s : Nat, 0 ≤ ⌊(s : ℚ) / (T : ℚ) * 100 + 1 / 2⌋ := by
    intro s
    apply Int.floor_nonneg.mpr
    positivity
  have hub : ∀ s : Nat, s ≤ T → ⌊(s : ℚ) / (T : ℚ) * 100 + 1 / 2⌋ ≤ 100 := by
    intro s hsT
    have h1 : (s : ℚ) / (T : ℚ) ≤ 1 := by
      rw [div_le_one hT0]; exact_mod_cast hsT
    have h2 : (s : ℚ) / (T : ℚ) * 100 + 1 / 2 < ((101 : ℤ) : ℚ) := by
      push_cast; nlinarith
    have := Int.floor_lt.mpr h2
    omega
  have hex : ∀ s : Nat, s ≤ T → ∃ k : Nat,
      (k : ℤ) = ⌊(s : ℚ) / (T : ℚ) * 100 + 1 / 2⌋ ∧ k ≤ 100 ∧
      stepPercent s T = JsNum.num ((k : ℕ) : ℚ) := by
    intro s hsT
    refine ⟨(⌊(s : ℚ) / (T : ℚ) * 100 + 1 / 2⌋).toNat, Int.toNat_of_nonneg (hnn s), ?_, ?_⟩
    · have := hub s hsT
      have := hnn s
      omega
    · rw [hstep s]
      congr 1
      have hcast : (((⌊(s : ℚ) / (T : ℚ) * 100 + 1 / 2⌋).toNat : ℤ) : ℚ)
          = ((⌊(s : ℚ) / (T : ℚ) * 100 + 1 / 2⌋ : ℤ) : ℚ) := by
        rw [Int.toNat_of_nonneg (hnn s)]
      exact_mod_cast hcast.symm
  refine ⟨fun ht => ?_, fun h12 h2T => ?_, ?_, fun d r l m chunks tres hs => ?_⟩
  · obtain ⟨k, _, hk, he⟩ := hex t ht
    exact ⟨k, hk, he⟩
  · obtain ⟨k1, hk1i, hk1, he1⟩ := hex t1 (le_trans h12 h2T)
    obtain ⟨k2, hk2i, hk2, he2⟩ := hex t2 h2T
    have hmono : ⌊(t1 : ℚ) / (T : ℚ) * 100 + 1 / 2⌋ ≤ ⌊(t2 : ℚ) / (T : ℚ) * 100 + 1 / 2⌋ := by
      apply Int.floor_le_floor
      have hc : (t1 : ℚ) ≤ (t2 : ℚ) := by exact_mod_cast h12
      have hdiv : (t1 : ℚ) / (T : ℚ) ≤ (t2 : ℚ) / (T : ℚ) :=
        (div_le_div_iff_of_pos_right hT0).mpr hc
      nlinarith
    exact ⟨k1, k2, by omega, he1, he2⟩
  · rw [hstep T, div_self hTne]
    have h100 : ⌊(1 : ℚ) * 100 + 1 / 2⌋ = (100 : ℤ) := by
      apply Int.floor_eq_iff.mpr
      constructor <;> norm_num
    rw [h100]
    norm_num
  · constructor <;> simp [Device.get, Device.put, hs]

/-- C8 witness: the theorem applied at a two-byte transfer, for the
integer-range clause at the half-way chunk and the completion clause. -/
theorem transfer_progress_witness :
    (∃ k : Nat, k ≤ 100 ∧ stepPercent 1 2 = JsNum.num ((k : ℕ) : ℚ)) ∧
    stepPercent 2 2 = JsNum.num ((100 : ℕ) : ℚ) :=
  ⟨(transfer_progress 1 0 1 2 (by decide)).1 (by decide),
   (transfer_progress 1 0 1 2 (by decide)).2.2.1⟩


/-- A lookup hit is preserved when entries are appended to the tree. -/
theorem lookupFs_append_some {fs : Fs} {p : RPath} {b : Bool} (l : Fs)
    (h : lookupFs fs p = some b) : lookupFs (fs ++ l) p = some b := by
  unfold lookupFs at *
  rcases hf : fs.find? (fun e => decide (e.1 = p)) with _ | e
  · rw [hf] at h; simp at h
  · rw [List.find?_append, hf]
    rw [hf] at h
    simpa using h

/-- A stat hit is preserved when entries are appended to the tree. -/
theorem statFs_append_some {fs : Fs} {p : RPath} {b : Bool} (l : Fs)
    (h : statFs fs p = some b) : statFs (fs ++ l) p = some b := by
  unfold statFs at *
  by_cases hp : p = []
  · simpa [hp] using h
  · simp only [hp, if_false] at *
    exact lookupFs_append_some l h

/-- Appending an entry for a previously missing path makes it resolve. -/
theorem statFs_self_append {fs : Fs} {p : RPath} (b : Bool)
    (h : statFs fs p = none) : statFs (fs ++ [(p, b)]) p = some b := by
  unfold statFs at *
  by_cases hp : p = []
  · simp [hp] at h
  · simp only [hp, if_false] at *
    unfold lookupFs at *
    rcases hf : fs.find? (fun e => decide (e.1 = p)) with _ | e
    · rw [List.find?_append, hf]
      simp [List.find?]
    · rw [hf] at h; simp at h

/-- A path that stats as a non-directory is recorded as a file entry. -/
theorem statFs_false_mem {fs : Fs} {p : RPath}
    (h : statFs fs p = some false) : ∃ e ∈ fs, e.2 = false := by
  unfold statFs lookupFs at h
  by_cases hp : p = []
  · simp [hp] at h
  · simp only [hp, if_false] at h
    rcases hf : fs.find? (fun e => decide (e.1 = p)) with _ | e
    · rw [hf] at h; simp at h
    · rw [hf] at h
      simp at h
      exact ⟨e, List.mem_of_find?_eq_some hf, h⟩

/-- Every entry of the tree is a directory. -/
def allDirs (fs : Fs) : Prop := ∀ e ∈ fs, e.2 = true

/-- Appending a directory entry preserves the all-directories property. -/
theorem allDirs_append {fs : Fs} (p : RPath) (h : allDirs fs) :
    allDirs (fs ++ [(p, true)]) := by
  intro e he
  rcases List.mem_append.mp he with h1 | h2
  · exact h e h1
  · simp_all

/-- Every prefix of the accumulated path resolves to a directory (the
empty prefix is the root, which always does). -/
def prefixesDirs (fs : Fs) (p : RPath) : Prop :=
  ∀ q, q <+: p → statFs fs q = some true

/-- The empty accumulator (the root) always satisfies prefixesDirs. -/
theorem prefixesDirs_nil (fs : Fs) : prefixesDirs fs [] := by
  intro q hq
  rw [List.prefix_nil.mp hq]
  simp [statFs]

/-- prefixesDirs is preserved when entries are appended to the tree. -/
theorem prefixesDirs_append {fs : Fs} {p : RPath} (l : Fs)
    (h : prefixesDirs fs p) : prefixesDirs (fs ++ l) p :=
  fun q hq => statFs_append_some l (h q hq)

/-- prefixesDirs restricts to any shorter accumulator. -/
theorem prefixesDirs_mono {fs : Fs} {p q : RPath}
    (h : prefixesDirs fs p) (hqp : q <+: p) : prefixesDirs fs q :=
  fun x hx => h x (hx.trans hqp)

/-- prefixesDirs extends by one segment once that prefix is a directory. -/
theorem prefixesDirs_snoc {fs : Fs} {p : RPath} {n : String}
    (h : prefixesDirs fs p) (hn : statFs fs (p ++ [n]) = some true) :
    prefixesDirs fs (p ++ [n]) := by
  intro q hq
  rcases List.prefix_concat_iff.mp hq with h1 | h2
  · rw [h1]; exact hn
  · exact h q h2

/-- An empty or dot segment leaves the accumulator unchanged. -/
theorem joinSegs_dot {part : RPath} {name : String}
    (h : name = "" ∨ name = ".") : joinSegs part name = part := by
  rcases h with h | h <;> simp [joinSegs, h]

/-- A dot-dot segment pops one level. -/
theorem joinSegs_dotdot (part : RPath) : joinSegs part ".." = part.dropLast := by
  unfold joinSegs
  rw [if_neg (by decide), if_pos rfl]

/-- Any other segment is appended. -/
theorem joinSegs_normal {part : RPath} {name : String}
    (h0 : ¬ (name = "" ∨ name = ".")) (h2 : name ≠ "..") :
    joinSegs part name = part ++ [name] := by
  simp [joinSegs, h0, h2]

/-- Without injected faults, remote stat is determined by the tree. -/
theorem Remote.stat_clean {r : Remote} (hf : r.statFaults = []) (p : RPath) :
    r.stat p = (match statFs r.fs p with
      | some b => .ok { isDir := b }
      | none => .error (.sftp .noSuchFile)) := by
  simp [Remote.stat, hf]

/-- Continue step of the mkdir_p walk: when the next accumulated prefix
already resolves to a directory, the walk performs no write at this level,
the loop invariants carry to the recursive call, and a second run of the
same step from the final device takes the same branch. -/
theorem mkdir_pGo_run_cont (rest : List String)
    (ih : ∀ (d : Device) (part : RPath) (res : Except Err Unit) (d1 : Device) (tr : List Call),
      d.remote.statFaults = [] → d.sftp = true → prefixesDirs d.remote.fs part →
      mkdir_pGo d part rest = (res, d1, tr) →
      (∃ l, d1 = { d with remote := { d.remote with fs := d.remote.fs ++ l } }) ∧
      (∃ tr2, mkdir_pGo d1 part rest = (res, d1, tr2)) ∧
      (allDirs d.remote.fs → res = .ok () ∧ allDirs d1.remote.fs))
    (d : Device) (part part2 : RPath) (name : String) (res : Except Err Unit)
    (d1 : Device) (tr : List Call)
    (hf : d.remote.statFaults = []) (hs : d.sftp = true)
    (hj : joinSegs part name = part2)
    (hstat2 : statFs d.remote.fs part2 = some true)
    (hpre2 : prefixesDirs d.remote.fs part2)
    (heq : mkdir_pGo d part (name :: rest) = (res, d1, tr)) :
    (∃ l, d1 = { d with remote := { d.remote with fs := d.remote.fs ++ l } }) ∧
    (∃ tr2, mkdir_pGo d1 part (name :: rest) = (res, d1, tr2)) ∧
    (allDirs d.remote.fs → res = .ok () ∧ allDirs d1.remote.fs) := by
  simp only [mkdir_pGo, hj] at heq
  rw [Device.statP] at heq
  rw [if_pos hs, Remote.stat_clean hf, hstat2] at heq
  simp only [] at heq
  rcases hrec : mkdir_pGo d part2 rest with ⟨res0, d10, tr0⟩
  rw [hrec] at heq
  simp only [Prod.mk.injEq] at heq
  obtain ⟨rfl, rfl, rfl⟩ := heq
  obtain ⟨⟨l, hl⟩, ⟨tr2, hsec⟩, hok⟩ := ih d part2 res d1 tr0 hf hs hpre2 hrec
  have hs1 : d1.sftp = true := by rw [hl]; exact hs
  have hf1 : d1.remote.statFaults = [] := by rw [hl]; exact hf
  have hstat1 : statFs d1.remote.fs part2 = some true := by
    rw [hl]; exact statFs_append_some l hstat2
  refine ⟨⟨l, hl⟩, ⟨[Call.stat part2] ++ tr2, ?_⟩, hok⟩
  simp only [mkdir_pGo, hj]
  rw [Device.statP, if_pos hs1, Remote.stat_clean hf1, hstat1]
  simp only []
  rw [hsec]
  simp

/-- Run analysis of the mkdir_p loop over a fault-free remote: the final
device only appends entries to the tree, rerunning the loop from the final
device returns the same result and leaves the device unchanged, and on an
all-directories tree the loop succeeds and keeps every entry a directory. -/
theorem mkdir_pGo_run (names : List String) :
    ∀ (d : Device) (part : RPath) (res : Except Err Unit) (d1 : Device) (tr : List Call),
      d.remote.statFaults = [] → d.sftp = true → prefixesDirs d.remote.fs part →
      mkdir_pGo d part names = (res, d1, tr) →
      (∃ l, d1 = { d with remote := { d.remote with fs := d.remote.fs ++ l } }) ∧
      (∃ tr2, mkdir_pGo d1 part names = (res, d1, tr2)) ∧
      (allDirs d.remote.fs → res = .ok () ∧ allDirs d1.remote.fs) := by
  induction names with
  | nil =>
    intro d part res d1 tr hf hs hpre heq
    simp only [mkdir_pGo, Prod.mk.injEq] at heq
    obtain ⟨rfl, rfl, rfl⟩ := heq
    refine ⟨⟨[], by simp⟩, ⟨[], rfl⟩, fun hAD => ⟨rfl, hAD⟩⟩
  | cons name rest ih =>
    intro d part res d1 tr hf hs hpre heq
    by_cases hdot : name = "" ∨ name = "."
    · exact mkdir_pGo_run_cont rest ih d part part name res d1 tr hf hs
        (joinSegs_dot hdot) (hpre part List.prefix_rfl) hpre heq
    · by_cases hdd : name = ".."
      · subst hdd
        exact mkdir_pGo_run_cont rest ih d part part.dropLast ".." res d1 tr hf hs
          (joinSegs_dotdot part) (hpre part.dropLast ( List.dropLast_prefix part))
          (prefixesDirs_mono hpre ( List.dropLast_prefix part)) heq
      · have hj : joinSegs part name = part ++ [name] := joinSegs_normal hdot hdd
        rcases hstatN : statFs d.remote.fs (part ++ [name]) with _ | b
        case neg.some =>
          cases b
          case true =>
            exact mkdir_pGo_run_cont rest ih d part (part ++ [name]) name res d1 tr hf hs
              hj hstatN (prefixesDirs_snoc hpre hstatN) heq
          case false =>
            simp only [mkdir_pGo, hj] at heq
            rw [Device.statP, if_pos hs, Remote.stat_clean hf, hstatN] at heq
            simp only [Prod.mk.injEq] at heq
            obtain ⟨rfl, rfl, rfl⟩ := heq
            refine ⟨⟨[], by simp⟩, ⟨[Call.stat (part ++ [name])], ?_⟩, fun hAD => ?_⟩
            · simp only [mkdir_pGo, hj]
              rw [Device.statP, if_pos hs, Remote.stat_clean hf, hstatN]
              simp
            · obtain ⟨e, he, hef⟩ := statFs_false_mem hstatN
              rw [hAD e he] at hef
              cases hef
        case neg.none =>
          have hparent : statFs d.remote.fs part = some true := hpre part List.prefix_rfl
          have hdl : (part ++ [name]).dropLast = part := List.dropLast_concat
          have hmk : d.mkdirP (part ++ [name]) =
              (.ok (), { d with remote := { d.remote with
                  fs := d.remote.fs ++ [(part ++ [name], true)] } },
               [Call.mkdir (part ++ [name])]) := by
            rw [Device.mkdirP, if_pos hs]
            simp only [Remote.mkdir]
            rw [hstatN, hdl, hparent]
          simp only [mkdir_pGo, hj] at heq
          rw [Device.statP, if_pos hs, Remote.stat_clean hf, hstatN] at heq
          simp only [Err.code, ne_eq, not_true_eq_false, if_false, reduceIte] at heq
          rw [hmk] at heq
          simp only [] at heq
          rcases hrec : mkdir_pGo
              ({ d with remote := { d.remote with
                  fs := d.remote.fs ++ [(part ++ [name], true)] } })
              (part ++ [name]) rest with ⟨res0, d10, tr0⟩
          rw [hrec] at heq
          simp only [Prod.mk.injEq] at heq
          obtain ⟨rfl, rfl, rfl⟩ := heq
          have hf2 : ({ d with remote := { d.remote with
              fs := d.remote.fs ++ [(part ++ [name], true)] } } : Device).remote.statFaults = [] := hf
          have hs2 : ({ d with remote := { d.remote with
              fs := d.remote.fs ++ [(part ++ [name], true)] } } : Device).sftp = true := hs
          have hpre2 : prefixesDirs ({ d with remote := { d.remote with
              fs := d.remote.fs ++ [(part ++ [name], true)] } } : Device).remote.fs
              (part ++ [name]) :=
            prefixesDirs_snoc (prefixesDirs_append _ hpre) (statFs_self_append true hstatN)
          obtain ⟨⟨l, hl⟩, ⟨tr2, hsec⟩, hok⟩ :=
            ih _ (part ++ [name]) res0 d10 tr0 hf2 hs2 hpre2 hrec
          have hs1 : d10.sftp = true := by rw [hl]; exact hs
          have hf1 : d10.remote.statFaults = [] := by rw [hl]; exact hf
          have hstat1 : statFs d10.remote.fs (part ++ [name]) = some true := by
            rw [hl]
            exact statFs_append_some l (statFs_self_append true hstatN)
          refine ⟨⟨(part ++ [name], true) :: l, ?_⟩,
            ⟨[Call.stat (part ++ [name])] ++ tr2, ?_⟩, fun hAD => ?_⟩
          · rw [hl]
            simp [List.append_assoc]
          · simp only [mkdir_pGo, hj]
            rw [Device.statP, if_pos hs1, Remote.stat_clean hf1, hstat1]
            simp only []
            rw [hsec]
            simp
          · exact hok (allDirs_append _ hAD)

/-- C4.  Over a remote without injected stat faults, calling mkdir_p twice
in succession returns the same outcome both times and leaves the remote
tree identical after the second call to what it was after the first; and
for an absolute path over a tree consisting of directories both calls
succeed.  In particular a rerun after any NotADirectory failure is safe
and changes nothing further. -/
theorem mkdir_p_idempotent (d : Device) (P : String)
    (hf : d.remote.statFaults = []) (hs : d.sftp = true) :
    ∀ res d1 tr, d.mkdir_p P = (res, d1, tr) →
      (∃ tr2, d1.mkdir_p P = (res, d1, tr2)) ∧
      (isAbsolute P = true → allDirs d.remote.fs → res = .ok ()) := by
  intro res d1 tr heq
  by_cases habs : isAbsolute P = true
  · rw [Device.mkdir_p, if_neg (by simp [habs])] at heq
    obtain ⟨⟨l, hl⟩, ⟨tr2, hsec⟩, hok⟩ :=
      mkdir_pGo_run ((splitSlash P).drop 1) d [] res d1 tr hf hs (prefixesDirs_nil _) heq
    refine ⟨⟨tr2, ?_⟩, fun _ hAD => (hok hAD).1⟩
    rw [Device.mkdir_p, if_neg (by simp [habs])]
    exact hsec
  · rw [Device.mkdir_p, if_pos (by simpa using habs)] at heq
    simp only [Prod.mk.injEq] at heq
    obtain ⟨rfl, rfl, rfl⟩ := heq
    refine ⟨⟨[], ?_⟩, fun habs2 _ => absurd habs2 habs⟩
    rw [Device.mkdir_p, if_pos (by simpa using habs)]

/-- C4 witness: the theorem applied to the empty tree and /a/b, whose
first run creates /a and /a/b; the second run is evaluated by the theorem
to succeed with the device unchanged. -/
theorem mkdir_p_idempotent_witness :
    ∃ tr2, Device.mkdir_p
        ({ devEmpty with remote := { fs := [(["a"], true), (["a", "b"], true)] } }) "/a/b"
      = (.ok (),
         { devEmpty with remote := { fs := [(["a"], true), (["a", "b"], true)] } }, tr2) := by
  obtain ⟨h1, _⟩ := mkdir_p_idempotent devEmpty "/a/b" rfl rfl (.ok ())
    ({ devEmpty with remote := { fs := [(["a"], true), (["a", "b"], true)] } })
    [Call.stat ["a"], Call.mkdir ["a"], Call.stat ["a", "b"], Call.mkdir ["a", "b"]]
    (by decide)
  exact h1
